import Mathlib

/-!
Verification of the checkpoint-diagram view code (`diagram.py`, `main.py`).

Shallow embedding conventions: Python float arithmetic is modelled over `ℚ`;
a Python `ZeroDivisionError` is modelled by an `Option` result; Python strings
are modelled as `List Char`.
-/

namespace Fzgx

/-- Checkpoint record: the fields of one csv row that the geometry code uses. -/
structure Check where
  center_x : ℚ
  center_y : ℚ
  center_z : ℚ
  right_x : ℚ
  right_y : ℚ
  right_z : ℚ
deriving DecidableEq

/-- diagram.py `x_coord`. -/
def x_coord (lateral_offset : ℚ) (check : Check) : ℚ :=
  check.center_x + lateral_offset*check.right_x

/-- diagram.py `y_coord`. -/
def y_coord (lateral_offset : ℚ) (check : Check) : ℚ :=
  check.center_y + lateral_offset*check.right_y

/-- diagram.py `z_coord`. -/
def z_coord (lateral_offset : ℚ) (check : Check) : ℚ :=
  check.center_z + lateral_offset*check.right_z

/-- diagram.py `neg_x_coord`. -/
def neg_x_coord (lateral_offset : ℚ) (check : Check) : ℚ :=
  -(check.center_x + lateral_offset*check.right_x)

/-- diagram.py `neg_y_coord`. -/
def neg_y_coord (lateral_offset : ℚ) (check : Check) : ℚ :=
  -(check.center_y + lateral_offset*check.right_y)

/-- diagram.py `neg_z_coord`. -/
def neg_z_coord (lateral_offset : ℚ) (check : Check) : ℚ :=
  -(check.center_z + lateral_offset*check.right_z)

/-- Python strings are modelled as lists of characters. -/
abbrev PyStr := List Char

/-- diagram.py `get_checkpoint_position_function`; an unknown token falls off
the end of the `if` chain, which Python reports as `None`. -/
def get_checkpoint_position_function (coord_str : PyStr) :
    Option (ℚ → Check → ℚ) :=
  if coord_str = ['x'] then some x_coord
  else if coord_str = ['y'] then some y_coord
  else if coord_str = ['z'] then some z_coord
  else if coord_str = ['-', 'x'] then some neg_x_coord
  else if coord_str = ['-', 'y'] then some neg_y_coord
  else if coord_str = ['-', 'z'] then some neg_z_coord
  else none

/-- Axes limits (matplotlib xlim and ylim): the visible data window. -/
structure Window where
  hmin : ℚ
  hmax : ℚ
  vmin : ℚ
  vmax : ℚ
deriving DecidableEq

/-- diagram.py `Diagram.convert_coords_canvas_to_game`. -/
def convert_coords_canvas_to_game (win : Window) (canvas_width canvas_height x y : ℚ) :
    ℚ × ℚ :=
  (win.hmin + (win.hmax - win.hmin)*(x / canvas_width),
   win.vmin + (win.vmax - win.vmin)*(y / canvas_height))

/-- diagram.py class attribute `zoom_factor = 1.2`. -/
def zoom_factor : ℚ := 6/5

/-- diagram.py `Diagram.zoom`: zoom in or out, centered on the mouse position. -/
def zoom (win : Window) (canvas_width canvas_height x y : ℚ)
    (direction_is_inward : Bool) : Window :=
  let game_coords := convert_coords_canvas_to_game win canvas_width canvas_height x y
  let space_stretch_factor := if direction_is_inward then 1 / zoom_factor else zoom_factor
  { hmin := game_coords.1 - (game_coords.1 - win.hmin)*space_stretch_factor
    hmax := game_coords.1 - (game_coords.1 - win.hmax)*space_stretch_factor
    vmin := game_coords.2 - (game_coords.2 - win.vmin)*space_stretch_factor
    vmax := game_coords.2 - (game_coords.2 - win.vmax)*space_stretch_factor }

/-- diagram.py `Diagram.pan`. -/
def pan (win : Window) (canvas_width canvas_height change_x change_y : ℚ) : Window :=
  let x_coord_ratio_game_to_canvas := (win.hmax - win.hmin) / canvas_width
  let y_coord_ratio_game_to_canvas := (win.vmax - win.vmin) / canvas_height
  { hmin := win.hmin - change_x*x_coord_ratio_game_to_canvas
    hmax := win.hmax - change_x*x_coord_ratio_game_to_canvas
    vmin := win.vmin - change_y*y_coord_ratio_game_to_canvas
    vmax := win.vmax - change_y*y_coord_ratio_game_to_canvas }

/-- Aspect-ratio-fixing block that appears verbatim both in
`Diagram.resize_event` and at the end of `Diagram.setup_figure`: expand one
axis of the given limits so the window matches the surface's aspect ratio. -/
def fix_aspect (axes_hmin axes_hmax axes_vmin axes_vmax width height : ℚ) : Window :=
  let hrange := axes_hmax - axes_hmin
  let vrange := axes_vmax - axes_vmin
  if hrange / vrange ≥ width / height then
    let target_vrange := hrange*(height / width)
    let extra_vspace_one_side := (target_vrange - vrange) / 2
    { hmin := axes_hmin, hmax := axes_hmax
      vmin := axes_vmin - extra_vspace_one_side
      vmax := axes_vmax + extra_vspace_one_side }
  else
    let target_hrange := vrange*(width / height)
    let extra_hspace_one_side := (target_hrange - hrange) / 2
    { hmin := axes_hmin - extra_hspace_one_side
      hmax := axes_hmax + extra_hspace_one_side
      vmin := axes_vmin, vmax := axes_vmax }

/-- diagram.py `Diagram.resize_event`: refit the current window to a new
surface size.  The Python expression `hrange / vrange` raises
`ZeroDivisionError` when the current vertical range is zero; that failure is
modelled as `none`. -/
def resize_event_fit (win : Window) (width height : ℚ) : Option Window :=
  if win.vmax - win.vmin = 0 then none
  else some (fix_aspect win.hmin win.hmax win.vmin win.vmax width height)

/-- diagram.py `setup_figure`, `margin_factor = 0.1`. -/
def margin_factor : ℚ := 1/10

/-- diagram.py `setup_figure`: `axes_hmin` after the margin expansion. -/
def axes_hmin_margin (data_hmin data_hmax : ℚ) : ℚ :=
  data_hmin - (data_hmax - data_hmin)*margin_factor

/-- diagram.py `setup_figure`: `axes_hmax` after the margin expansion. -/
def axes_hmax_margin (data_hmin data_hmax : ℚ) : ℚ :=
  data_hmax + (data_hmax - data_hmin)*margin_factor

/-- diagram.py `setup_figure`: `axes_vmin` after the margin expansion. -/
def axes_vmin_margin (data_vmin data_vmax : ℚ) : ℚ :=
  data_vmin - (data_vmax - data_vmin)*margin_factor

/-- diagram.py `setup_figure`: `axes_vmax` after the margin expansion. -/
def axes_vmax_margin (data_vmin data_vmax : ℚ) : ℚ :=
  data_vmax + (data_vmax - data_vmin)*margin_factor

/-- diagram.py `Diagram.setup_figure`, the axes-limit computation: expand the
data extent by the margin on each side, then fix the aspect ratio.  As in
`resize_event`, the division `hrange / vrange` raises `ZeroDivisionError` when
the margin-expanded vertical range is zero; that failure is modelled as
`none`.  The DPI bookkeeping at the top of `setup_figure` does not touch the
axes limits and is not modelled here. -/
def setup_figure_limits (data_hmin data_hmax data_vmin data_vmax width height : ℚ) :
    Option Window :=
  let ahmin := axes_hmin_margin data_hmin data_hmax
  let ahmax := axes_hmax_margin data_hmin data_hmax
  let avmin := axes_vmin_margin data_vmin data_vmax
  let avmax := axes_vmax_margin data_vmin data_vmax
  if avmax - avmin = 0 then none
  else some (fix_aspect ahmin ahmax avmin avmax width height)

/-- diagram.py `draw_checkpoints`: the square of `base_plane_length`, which the
source computes as `math.sqrt` of this value, with `haxis_coords[1]` the
projection of the checkpoint center (lateral offset 0) and `haxis_coords[0]`
the projection of the track edge (lateral offset `-half_track_width`). -/
def base_plane_sq (haxis vaxis : ℚ → Check → ℚ) (c : Check)
    (half_track_width : ℚ) : ℚ :=
  (haxis 0 c - haxis (-half_track_width) c)^2
    + (vaxis 0 c - vaxis (-half_track_width) c)^2

/-- Characterisation of `math.sqrt`: `r` is the nonnegative square root of `d`. -/
def is_sqrt (r d : ℚ) : Prop := 0 ≤ r ∧ r^2 = d

/-- diagram.py `draw_checkpoints`: `extended_3d_length`, guarded by
`base_plane_length > 0`. -/
def extended_3d_length (extended_plane_length base_3d_length base_plane_length : ℚ) : ℚ :=
  if base_plane_length > 0 then
    extended_plane_length * (base_3d_length / base_plane_length)
  else 0

/-- diagram.py `draw_checkpoints`: `label_distance` from `number_distance` and
the track width (`half_track_width = track_width/2`). -/
def label_distance (number_distance track_width : ℚ) : ℚ :=
  if number_distance > 0 then number_distance + track_width/2
  else number_distance - track_width/2

/-- Modelled from the spec's words, for comparison with `label_distance`:
`number_distance + sign(number_distance)*w/2`. -/
def spec_label_distance (number_distance track_width : ℚ) : ℚ :=
  number_distance
    + (if 0 < number_distance then 1 else if number_distance < 0 then -1 else 0)
      * (track_width/2)

/-- diagram.py `draw_checkpoints`: `label_3d_distance`, guarded by
`base_plane_length > 0 or base_plane_length < 0`. -/
def label_3d_distance (ldist base_3d_length base_plane_length : ℚ) : ℚ :=
  if base_plane_length > 0 ∨ base_plane_length < 0 then
    ldist * (base_3d_length / base_plane_length)
  else 0

/-- diagram.py `Diagram.rectangle_select_interaction` values: Python `None`,
`'ready'`, `'drawing'`. -/
inductive Interaction where
  | inactive
  | ready
  | drawing
deriving DecidableEq

/-- State of the rectangle-selection tool: the interaction string, the stored
origin pixel (`rectangle_select_origin_x/y`), and the committed
`save_rectangle` (two pixel-space corners). -/
structure SelectState where
  interaction : Interaction
  origin_x : ℚ
  origin_y : ℚ
  save_rectangle : Option ((ℚ × ℚ) × (ℚ × ℚ))
deriving DecidableEq

/-- Pointer and tool events delivered to the rectangle-selection tool. -/
inductive SelectEvent where
  | activate
  | press (x y : ℚ)
  | move (x y : ℚ)
  | release (x y : ℚ)
deriving DecidableEq

/-- diagram.py: the clamping `event_x_bounded = min(max(event.x, 0), canvas_width)`
performed in the motion and release handlers. -/
def event_bounded (v bound : ℚ) : ℚ := min (max v 0) bound

/-- One step of the rectangle-selection tool: `activate_rectangle_select`,
`rectangle_select_button_press_event` (whose else branch calls
`deactivate_rectangle_select`), `rectangle_select_motion_notify_event` (which
only redraws the rubber band and changes none of the modelled state), and
`rectangle_select_button_release_event`. -/
def select_step (canvas_width canvas_height : ℚ) (s : SelectState) :
    SelectEvent → SelectState
  | .activate => { s with interaction := .ready, save_rectangle := none }
  | .press x y =>
    if s.interaction = Interaction.ready then
      { s with origin_x := x, origin_y := y, interaction := .drawing }
    else
      { s with interaction := .inactive, save_rectangle := none }
  | .move _ _ => s
  | .release x y =>
    if s.interaction = Interaction.drawing then
      { s with
          save_rectangle := some ((s.origin_x, s.origin_y),
            (event_bounded x canvas_width, event_bounded y canvas_height))
          interaction := .inactive }
    else s

/-- State after `Diagram.__init__` / `deactivate_rectangle_select`: no
interaction, no committed rectangle. -/
def initial_select_state : SelectState :=
  { interaction := .inactive, origin_x := 0, origin_y := 0, save_rectangle := none }

/-- Run a sequence of selection events from the initial state. -/
def select_run (canvas_width canvas_height : ℚ) (evs : List SelectEvent) : SelectState :=
  evs.foldl (select_step canvas_width canvas_height) initial_select_state

/-- Membership of a pixel point in the drawing surface `[0,w] × [0,h]`. -/
def in_canvas (canvas_width canvas_height : ℚ) (p : ℚ × ℚ) : Prop :=
  0 ≤ p.1 ∧ p.1 ≤ canvas_width ∧ 0 ≤ p.2 ∧ p.2 ≤ canvas_height

/-- Arguments passed to `figure.savefig` by `Diagram.save`: the optional
`bbox_inches` sub-region (two corners, in inches), the `dpi`, and the forced
output format. -/
structure SaveAction where
  bbox_inches : Option ((ℚ × ℚ) × (ℚ × ℚ))
  dpi : ℚ
  img_format : String
deriving DecidableEq

/-- diagram.py `Diagram.save`: `if self.save_rectangle:` is a `None` check (a
committed rectangle is a nonempty tuple, hence truthy even when degenerate);
the corners are divided by the display DPI `self.status.dpi`, while `savefig`
receives `dpi=self.status.save_dpi` and `format='png'`. -/
def save (save_rectangle : Option ((ℚ × ℚ) × (ℚ × ℚ)))
    (status_dpi save_dpi : ℚ) : SaveAction :=
  match save_rectangle with
  | some rect =>
    { bbox_inches := some
        ((min rect.1.1 rect.2.1 / status_dpi, min rect.1.2 rect.2.2 / status_dpi),
         (max rect.1.1 rect.2.1 / status_dpi, max rect.1.2 rect.2.2 / status_dpi))
      dpi := save_dpi
      img_format := "png" }
  | none =>
    { bbox_inches := none, dpi := save_dpi, img_format := "png" }

/-- Python `s.split(sep)` for a one-character separator. -/
def pySplit (sep : Char) : PyStr → List PyStr
  | [] => [[]]
  | c :: rest =>
    if c = sep then [] :: pySplit sep rest
    else
      match pySplit sep rest with
      | [] => [[c]]
      | piece :: pieces => (c :: piece) :: pieces

/-- Python `s.strip()`: remove leading and trailing whitespace. -/
def pyStrip (s : PyStr) : PyStr :=
  ((s.dropWhile Char.isWhitespace).reverse.dropWhile Char.isWhitespace).reverse

/-- Value of a string of decimal digits. -/
def digits_value (cs : PyStr) : ℕ :=
  cs.foldl (fun a c => a*10 + (c.toNat - 48)) 0

/-- Decimal digit run accepted by Python `int()` after sign removal: nonempty
and all digits; anything else raises `ValueError` (modelled as `none`). -/
def pyIntDigits (cs : PyStr) : Option ℕ :=
  if cs ≠ [] ∧ ∀ c ∈ cs, c.isDigit = true then some (digits_value cs) else none

/-- Python `int(s)` on a decimal literal with optional surrounding whitespace
and optional sign; a failure (`ValueError`) is `none`. -/
def pyInt (s : PyStr) : Option ℤ :=
  match pyStrip s with
  | '-' :: rest => (pyIntDigits rest).map (fun n => -(n : ℤ))
  | '+' :: rest => (pyIntDigits rest).map (fun n => (n : ℤ))
  | t => (pyIntDigits t).map (fun n => (n : ℤ))

/-- Body of the loop in main.py `parse_checkpoint_set`, for one comma-separated
entry: strip it; if it contains `-` it must split into exactly two integer
halves (`low, high = range_str.split('-')` raises otherwise), clamped to
`[0, 999]`, contributing `range(low, high+1)`, i.e. `Finset.Icc low high`;
otherwise it is a single unclamped integer. -/
def parse_entry (range_str : PyStr) : Option (Finset ℤ) :=
  let rs := pyStrip range_str
  if '-' ∈ rs then
    match pySplit '-' rs with
    | [low, high] =>
      match pyInt low, pyInt high with
      | some lo, some hi => some (Finset.Icc (max lo 0) (min hi 999))
      | _, _ => none
    | _ => none
  else
    (pyInt rs).map (fun n => ({n} : Finset ℤ))

/-- main.py `parse_checkpoint_set`: the empty string short-circuits to the
empty set; otherwise the comma-separated entries are accumulated with set
union, any `ValueError` aborting the whole parse. -/
def parse_checkpoint_set (checkpoint_set_str : PyStr) : Option (Finset ℤ) :=
  if checkpoint_set_str = [] then some ∅
  else
    (pySplit ',' checkpoint_set_str).foldl
      (fun acc range_str =>
        match acc, parse_entry range_str with
        | some checkpoint_set, some entry => some (checkpoint_set ∪ entry)
        | _, _ => none)
      (some (∅ : Finset ℤ))

/-!
Helper lemmas shared between several claims.
-/

/-- Core properties of the shared aspect-fixing block: for a window with
nonnegative horizontal range, positive vertical range and a positive surface,
the result has exactly the surface's aspect ratio, contains the input limits,
and is non-degenerate on both axes. -/
lemma fix_aspect_spec (hmin hmax vmin vmax width height : ℚ)
    (hh : hmin ≤ hmax) (hv : vmin < vmax) (hw : 0 < width) (hht : 0 < height) :
    ((fix_aspect hmin hmax vmin vmax width height).hmax
        - (fix_aspect hmin hmax vmin vmax width height).hmin)
      / ((fix_aspect hmin hmax vmin vmax width height).vmax
        - (fix_aspect hmin hmax vmin vmax width height).vmin) = width / height
    ∧ (fix_aspect hmin hmax vmin vmax width height).hmin ≤ hmin
    ∧ hmax ≤ (fix_aspect hmin hmax vmin vmax width height).hmax
    ∧ (fix_aspect hmin hmax vmin vmax width height).vmin ≤ vmin
    ∧ vmax ≤ (fix_aspect hmin hmax vmin vmax width height).vmax
    ∧ (fix_aspect hmin hmax vmin vmax width height).hmin
        < (fix_aspect hmin hmax vmin vmax width height).hmax
    ∧ (fix_aspect hmin hmax vmin vmax width height).vmin
        < (fix_aspect hmin hmax vmin vmax width height).vmax := by
  have hv' : 0 < vmax - vmin := by linarith
  by_cases hcond : (hmax - hmin) / (vmax - vmin) ≥ width / height
  · have hbr : fix_aspect hmin hmax vmin vmax width height =
        { hmin := hmin, hmax := hmax
          vmin := vmin - ((hmax - hmin)*(height/width) - (vmax - vmin))/2
          vmax := vmax + ((hmax - hmin)*(height/width) - (vmax - vmin))/2 } := by
      simp only [fix_aspect]
      rw [if_pos hcond]
    have hcond' : width * (vmax - vmin) ≤ (hmax - hmin) * height :=
      (div_le_div_iff₀ hht hv').mp hcond
    have hhr : 0 < hmax - hmin := by nlinarith [mul_pos hw hv']
    have hev : 0 ≤ ((hmax - hmin)*(height/width) - (vmax - vmin))/2 := by
      have h1 : vmax - vmin ≤ (hmax - hmin)*(height/width) := by
        rw [← mul_div_assoc, le_div_iff₀ hw]
        nlinarith
      linarith
    rw [hbr]
    refine ⟨?_, le_refl _, le_refl _, by simp only; linarith, by simp only; linarith,
      by simp only; linarith, by simp only; linarith⟩
    simp only
    rw [show vmax + ((hmax - hmin)*(height/width) - (vmax - vmin))/2
        - (vmin - ((hmax - hmin)*(height/width) - (vmax - vmin))/2)
        = (hmax - hmin)*(height/width) from by ring]
    rw [div_eq_div_iff (by positivity) (by positivity)]
    try field_simp
    try ring
  · have hbr : fix_aspect hmin hmax vmin vmax width height =
        { hmin := hmin - ((vmax - vmin)*(width/height) - (hmax - hmin))/2
          hmax := hmax + ((vmax - vmin)*(width/height) - (hmax - hmin))/2
          vmin := vmin, vmax := vmax } := by
      simp only [fix_aspect]
      rw [if_neg hcond]
    push_neg at hcond
    have hcond' : (hmax - hmin) * height < width * (vmax - vmin) :=
      (div_lt_div_iff₀ hv' hht).mp hcond
    have heh : 0 < ((vmax - vmin)*(width/height) - (hmax - hmin))/2 := by
      have h1 : hmax - hmin < (vmax - vmin)*(width/height) := by
        rw [← mul_div_assoc, lt_div_iff₀ hht]
        nlinarith
      linarith
    rw [hbr]
    refine ⟨?_, by simp only; linarith, by simp only; linarith, le_refl _, le_refl _,
      by simp only; linarith, by simp only; linarith⟩
    simp only
    rw [show hmax + ((vmax - vmin)*(width/height) - (hmax - hmin))/2
        - (hmin - ((vmax - vmin)*(width/height) - (hmax - hmin))/2)
        = (vmax - vmin)*(width/height) from by ring]
    rw [div_eq_div_iff (by positivity) (by positivity)]
    try field_simp
    try ring

/-- Invariant carried through the selection state machine: a drawing origin,
and both corners of a committed rectangle, lie on the drawing surface. -/
def select_good (cw ch : ℚ) (s : SelectState) : Prop :=
  (s.interaction = Interaction.drawing → in_canvas cw ch (s.origin_x, s.origin_y))
  ∧ ∀ r ∈ s.save_rectangle, in_canvas cw ch r.1 ∧ in_canvas cw ch r.2

/-- Clamped event coordinates land in `[0, bound]` when `0 ≤ bound`. -/
lemma event_bounded_mem (v bound : ℚ) (hb : 0 ≤ bound) :
    0 ≤ event_bounded v bound ∧ event_bounded v bound ≤ bound :=
  ⟨le_min (le_max_right v 0) hb, min_le_right _ _⟩

/-- One selection-tool step preserves `select_good` provided any press event of
that step has in-surface coordinates. -/
lemma select_step_good (cw ch : ℚ) (hcw : 0 ≤ cw) (hch : 0 ≤ ch)
    (s : SelectState) (e : SelectEvent) (hs : select_good cw ch s)
    (he : ∀ x y, e = SelectEvent.press x y → in_canvas cw ch (x, y)) :
    select_good cw ch (select_step cw ch s e) := by
  obtain ⟨hdraw, hrect⟩ := hs
  cases e with
  | activate =>
    constructor
    · intro h
      simp [select_step] at h
    · intro r hr
      simp [select_step] at hr
  | press x y =>
    by_cases hr : s.interaction = Interaction.ready
    · constructor
      · intro _
        simp only [select_step, hr, if_pos]
        exact he x y rfl
      · intro r hmem
        simp only [select_step, hr, if_pos] at hmem
        exact hrect r hmem
    · constructor
      · intro h
        simp [select_step, hr] at h
      · intro r hmem
        simp [select_step, hr] at hmem
  | move x y =>
    exact ⟨hdraw, hrect⟩
  | release x y =>
    by_cases hd : s.interaction = Interaction.drawing
    · constructor
      · intro h
        simp [select_step, hd] at h
      · intro r hmem
        simp only [select_step, hd, if_pos, Option.mem_def, Option.some.injEq] at hmem
        subst hmem
        refine ⟨hdraw hd, ?_⟩
        obtain ⟨h1, h2⟩ := event_bounded_mem x cw hcw
        obtain ⟨h3, h4⟩ := event_bounded_mem y ch hch
        exact ⟨h1, h2, h3, h4⟩
    · constructor
      · intro h
        simp only [select_step, hd, if_neg] at h ⊢
        exact hdraw h
      · intro r hmem
        simp only [select_step, hd, if_neg] at hmem
        exact hrect r hmem

/-- Folding any event list whose press events stay on the surface preserves
`select_good`. -/
lemma select_foldl_good (cw ch : ℚ) (hcw : 0 ≤ cw) (hch : 0 ≤ ch) :
    ∀ (evs : List SelectEvent) (s : SelectState), select_good cw ch s →
      (∀ x y, SelectEvent.press x y ∈ evs → in_canvas cw ch (x, y)) →
      select_good cw ch (evs.foldl (select_step cw ch) s) := by
  intro evs
  induction evs with
  | nil => intro s hs _; exact hs
  | cons e rest ih =>
    intro s hs hpress
    simp only [List.foldl_cons]
    refine ih (select_step cw ch s e) ?_ ?_
    · refine select_step_good cw ch hcw hch s e hs ?_
      intro x y hxy
      exact hpress x y (by rw [hxy]; exact List.mem_cons_self _ _)
    · intro x y hm
      exact hpress x y (List.mem_cons_of_mem _ hm)

/-!
Claims.
-/

/-- C1 Zoom round-trip: for every view window with `hmax > hmin` and
`vmax > vmin`, every positive surface size, and every anchor pixel `(x, y)`,
zooming in (factor `1/1.2`) and then out (factor `1.2`) at the same anchor
restores the original window, exactly over the rationals. -/
theorem zoom_round_trip (win : Window) (cw ch x y : ℚ)
    (hh : win.hmin < win.hmax) (hv : win.vmin < win.vmax)
    (hcw : 0 < cw) (hch : 0 < ch) :
    zoom (zoom win cw ch x y true) cw ch x y false = win := by
  cases win with
  | mk a b c d =>
    simp [zoom, convert_coords_canvas_to_game, zoom_factor, Window.mk.injEq]
    refine ⟨?_, ?_, ?_, ?_⟩ <;> ring

/-- Witness for C1 at a concrete window, surface and anchor. -/
theorem zoom_round_trip_witness :
    zoom (zoom ⟨0, 10, 0, 10⟩ 100 100 30 40 true) 100 100 30 40 false
      = ⟨0, 10, 0, 10⟩ :=
  zoom_round_trip ⟨0, 10, 0, 10⟩ 100 100 30 40 (by norm_num) (by norm_num)
    (by norm_num) (by norm_num)

/-- C2 Aspect fit: after fitting the window to a data extent with margin
(`setup_figure`) or refitting the current window on a surface resize
(`resize_event`), for every extent (resp. window) with positive range on both
axes and every positive surface `(width, height)`, the resulting window
satisfies `(hmax-hmin)/(vmax-vmin) = width/height` exactly, and the
margin-expanded data extent (resp. the previous window) is contained in the
result. -/
theorem aspect_fit_correct :
    (∀ data_hmin data_hmax data_vmin data_vmax width height : ℚ,
      data_hmin < data_hmax → data_vmin < data_vmax → 0 < width → 0 < height →
      ∃ win : Window,
        setup_figure_limits data_hmin data_hmax data_vmin data_vmax width height
          = some win
        ∧ (win.hmax - win.hmin) / (win.vmax - win.vmin) = width / height
        ∧ win.hmin ≤ axes_hmin_margin data_hmin data_hmax
        ∧ axes_hmax_margin data_hmin data_hmax ≤ win.hmax
        ∧ win.vmin ≤ axes_vmin_margin data_vmin data_vmax
        ∧ axes_vmax_margin data_vmin data_vmax ≤ win.vmax)
    ∧ (∀ (win : Window) (width height : ℚ),
      win.hmin < win.hmax → win.vmin < win.vmax → 0 < width → 0 < height →
      ∃ win2 : Window,
        resize_event_fit win width height = some win2
        ∧ (win2.hmax - win2.hmin) / (win2.vmax - win2.vmin) = width / height
        ∧ win2.hmin ≤ win.hmin ∧ win.hmax ≤ win2.hmax
        ∧ win2.vmin ≤ win.vmin ∧ win.vmax ≤ win2.vmax) := by
  constructor
  · intro dh dH dv dV w h hh hv hw hht
    have hmh : axes_hmin_margin dh dH ≤ axes_hmax_margin dh dH := by
      simp only [axes_hmin_margin, axes_hmax_margin, margin_factor]
      linarith
    have hmv : axes_vmin_margin dv dV < axes_vmax_margin dv dV := by
      simp only [axes_vmin_margin, axes_vmax_margin, margin_factor]
      linarith
    obtain ⟨hr, hc1, hc2, hc3, hc4, _, _⟩ :=
      fix_aspect_spec (axes_hmin_margin dh dH) (axes_hmax_margin dh dH)
        (axes_vmin_margin dv dV) (axes_vmax_margin dv dV) w h hmh hmv hw hht
    refine ⟨fix_aspect (axes_hmin_margin dh dH) (axes_hmax_margin dh dH)
      (axes_vmin_margin dv dV) (axes_vmax_margin dv dV) w h, ?_, hr, hc1, hc2, hc3, hc4⟩
    simp only [setup_figure_limits]
    rw [if_neg (by linarith)]
  · intro win w h hh hv hw hht
    obtain ⟨hr, hc1, hc2, hc3, hc4, _, _⟩ :=
      fix_aspect_spec win.hmin win.hmax win.vmin win.vmax w h (le_of_lt hh) hv hw hht
    refine ⟨fix_aspect win.hmin win.hmax win.vmin win.vmax w h, ?_, hr, hc1, hc2, hc3, hc4⟩
    simp only [resize_event_fit]
    rw [if_neg (by linarith)]

/-- Witness for C2 at a concrete extent, window and surface. -/
theorem aspect_fit_witness :
    (∃ win : Window,
      setup_figure_limits 0 100 0 50 800 600 = some win
      ∧ (win.hmax - win.hmin) / (win.vmax - win.vmin) = 800 / 600
      ∧ win.hmin ≤ axes_hmin_margin 0 100
      ∧ axes_hmax_margin 0 100 ≤ win.hmax
      ∧ win.vmin ≤ axes_vmin_margin 0 50
      ∧ axes_vmax_margin 0 50 ≤ win.vmax)
    ∧ (∃ win2 : Window,
      resize_event_fit ⟨0, 10, 0, 10⟩ 400 300 = some win2
      ∧ (win2.hmax - win2.hmin) / (win2.vmax - win2.vmin) = 400 / 300
      ∧ win2.hmin ≤ (Window.mk 0 10 0 10).hmin
      ∧ (Window.mk 0 10 0 10).hmax ≤ win2.hmax
      ∧ win2.vmin ≤ (Window.mk 0 10 0 10).vmin
      ∧ (Window.mk 0 10 0 10).vmax ≤ win2.vmax) :=
  ⟨aspect_fit_correct.1 0 100 0 50 800 600 (by norm_num) (by norm_num)
      (by norm_num) (by norm_num),
   aspect_fit_correct.2 ⟨0, 10, 0, 10⟩ 400 300 (by norm_num) (by norm_num)
      (by norm_num) (by norm_num)⟩

/-- C3 Pan: for every window, positive surface and pixel delta, `pan` shifts
every window bound down by `change*(range/surface)` on each axis — so the data
window moves opposite to the drag and the content under the pointer follows
it: the data point under pixel `(x, y)` before the pan is the data point under
pixel `(x+dx, y+dy)` after it.  `pan` is a total function: it always
succeeds. -/
theorem pan_correct (win : Window) (cw ch dx dy x y : ℚ)
    (hcw : 0 < cw) (hch : 0 < ch) :
    pan win cw ch dx dy =
      { hmin := win.hmin - dx*((win.hmax - win.hmin)/cw)
        hmax := win.hmax - dx*((win.hmax - win.hmin)/cw)
        vmin := win.vmin - dy*((win.vmax - win.vmin)/ch)
        vmax := win.vmax - dy*((win.vmax - win.vmin)/ch) }
    ∧ convert_coords_canvas_to_game (pan win cw ch dx dy) cw ch (x + dx) (y + dy)
        = convert_coords_canvas_to_game win cw ch x y := by
  constructor
  · rfl
  · simp only [pan, convert_coords_canvas_to_game, Prod.mk.injEq]
    constructor <;> field_simp <;> ring

/-- Witness for C3 at a concrete window, surface and delta. -/
theorem pan_correct_witness :
    pan ⟨0, 10, 0, 10⟩ 100 50 7 3 =
      { hmin := (0 : ℚ) - 7*((10 - 0)/100), hmax := 10 - 7*((10 - 0)/100)
        vmin := (0 : ℚ) - 3*((10 - 0)/50), vmax := 10 - 3*((10 - 0)/50) }
    ∧ convert_coords_canvas_to_game (pan ⟨0, 10, 0, 10⟩ 100 50 7 3) 100 50
        (20 + 7) (30 + 3)
        = convert_coords_canvas_to_game ⟨0, 10, 0, 10⟩ 100 50 20 30 :=
  pan_correct ⟨0, 10, 0, 10⟩ 100 50 7 3 20 30 (by norm_num) (by norm_num)

/-- C4 as stated is false at `number_distance = 0`: the code takes the
`else` branch and yields `-track_width/2`, while the claimed formula
`number_distance + sign(number_distance)*w/2` yields `0`. -/
theorem label_distance_counterexample :
    label_distance 0 90 ≠ spec_label_distance 0 90 := by
  norm_num [label_distance, spec_label_distance]

/-- C4 amended: the code computes `number_distance + w/2` when
`number_distance > 0` and `number_distance - w/2` otherwise; this agrees with
`number_distance + sign(number_distance)*w/2` for every nonzero
`number_distance`, but at `number_distance = 0` the code yields `-w/2`, not
`0`. -/
theorem label_distance_formula (number_distance track_width : ℚ) :
    (number_distance ≠ 0 →
      label_distance number_distance track_width
        = spec_label_distance number_distance track_width)
    ∧ label_distance 0 track_width = -(track_width/2) := by
  constructor
  · intro hne
    rcases lt_trichotomy number_distance 0 with h | h | h
    · rw [label_distance, if_neg (by linarith), spec_label_distance,
        if_neg (by linarith), if_pos h]
      ring
    · exact absurd h hne
    · rw [label_distance, if_pos h, spec_label_distance, if_pos h]
      ring
  · rw [label_distance, if_neg (by norm_num)]
    ring

/-- Witness for C4's amended formula at a nonzero distance. -/
theorem label_distance_witness :
    label_distance 75 90 = spec_label_distance 75 90 :=
  (label_distance_formula 75 90).1 (by norm_num)

/-- C5 Degenerate track direction: with `base_plane_length` the nonnegative
square root of the squared plane distance between the projected center and
edge of a checkpoint, a zero `base_plane_length` yields
`extended_3d_length = 0` and `label_3d_distance = 0` (both guards take the
division-free branch), and a nonzero one yields
`extend_length*(w/2)/base_plane_length` and
`label_distance*(w/2)/base_plane_length` respectively. -/
theorem degenerate_track_direction (s1 s2 : PyStr) (haxis vaxis : ℚ → Check → ℚ)
    (hs1 : get_checkpoint_position_function s1 = some haxis)
    (hs2 : get_checkpoint_position_function s2 = some vaxis)
    (c : Check) (track_width extend_length number_distance bpl : ℚ)
    (hsq : is_sqrt bpl (base_plane_sq haxis vaxis c (track_width/2))) :
    (bpl = 0 →
      extended_3d_length extend_length (track_width/2) bpl = 0 ∧
      label_3d_distance (label_distance number_distance track_width)
        (track_width/2) bpl = 0)
    ∧ (bpl ≠ 0 →
      extended_3d_length extend_length (track_width/2) bpl
        = extend_length * (track_width/2) / bpl ∧
      label_3d_distance (label_distance number_distance track_width)
        (track_width/2) bpl
        = label_distance number_distance track_width * (track_width/2) / bpl) := by
  obtain ⟨hnn, _⟩ := hsq
  constructor
  · intro h0
    subst h0
    constructor
    · simp [extended_3d_length]
    · simp [label_3d_distance]
  · intro hne
    have hpos : 0 < bpl := lt_of_le_of_ne hnn (Ne.symm hne)
    constructor
    · rw [extended_3d_length, if_pos hpos]
      ring
    · rw [label_3d_distance, if_pos (Or.inl hpos)]
      ring

/-- Witness for C5: a checkpoint whose `right` vector projects to zero on the
`(x, y)` pair (degenerate case), and one projecting to plane length 5. -/
theorem degenerate_track_direction_witness :
    (extended_3d_length 2000 (90/2) 0 = 0
      ∧ label_3d_distance (label_distance 75 90) (90/2) 0 = 0)
    ∧ (extended_3d_length 2000 (90/2) 5 = 2000 * (90/2) / 5
      ∧ label_3d_distance (label_distance 75 90) (90/2) 5
          = label_distance 75 90 * (90/2) / 5) :=
  ⟨(degenerate_track_direction ['x'] ['y'] x_coord y_coord rfl rfl
      ⟨0, 0, 0, 0, 0, 1⟩ 90 2000 75 0
      ⟨le_refl 0, by norm_num [base_plane_sq, x_coord, y_coord]⟩).1 rfl,
   (degenerate_track_direction ['x'] ['y'] x_coord y_coord rfl rfl
      ⟨0, 0, 0, 1/15, 4/45, 0⟩ 90 2000 75 5
      ⟨by norm_num, by norm_num [base_plane_sq, x_coord, y_coord]⟩).2 (by norm_num)⟩

/-- C6 as stated is false: an extent with zero vertical range (and nonzero
horizontal range) makes `setup_figure` evaluate `hrange / vrange` with
`vrange = 0`, a `ZeroDivisionError` (modelled as `none`), so no window at all
is produced. -/
theorem setup_figure_zero_vrange_counterexample :
    setup_figure_limits 0 100 0 0 800 600 = none := by
  simp [setup_figure_limits, axes_vmin_margin, axes_vmax_margin, margin_factor]

/-- C6 amended: an extent with zero horizontal range and positive vertical
range is handled without dividing by the zero-sized side — the horizontal
axis is expanded and the resulting window is non-degenerate on both axes; but
an extent with zero vertical range makes `setup_figure` divide by zero
(`ZeroDivisionError`, modelled as `none`), so the claimed guarantee does not
hold there. -/
theorem degenerate_extent_fit :
    (∀ data_hmin data_vmin data_vmax width height : ℚ,
      data_vmin < data_vmax → 0 < width → 0 < height →
      ∃ win : Window,
        setup_figure_limits data_hmin data_hmin data_vmin data_vmax width height
          = some win
        ∧ win.hmin < win.hmax ∧ win.vmin < win.vmax)
    ∧ (∀ data_hmin data_hmax data_vmin width height : ℚ,
        setup_figure_limits data_hmin data_hmax data_vmin data_vmin width height
          = none) := by
  constructor
  · intro dh dv dV w h hv hw hht
    have hmh : axes_hmin_margin dh dh ≤ axes_hmax_margin dh dh := by
      simp only [axes_hmin_margin, axes_hmax_margin, margin_factor]
      linarith
    have hmv : axes_vmin_margin dv dV < axes_vmax_margin dv dV := by
      simp only [axes_vmin_margin, axes_vmax_margin, margin_factor]
      linarith
    obtain ⟨_, _, _, _, _, hp1, hp2⟩ :=
      fix_aspect_spec (axes_hmin_margin dh dh) (axes_hmax_margin dh dh)
        (axes_vmin_margin dv dV) (axes_vmax_margin dv dV) w h hmh hmv hw hht
    refine ⟨fix_aspect (axes_hmin_margin dh dh) (axes_hmax_margin dh dh)
      (axes_vmin_margin dv dV) (axes_vmax_margin dv dV) w h, ?_, hp1, hp2⟩
    simp only [setup_figure_limits]
    rw [if_neg (by linarith)]
  · intro dh dH dv w h
    simp [setup_figure_limits, axes_vmin_margin, axes_vmax_margin, margin_factor]

/-- Witness for C6's amended safe half, at a zero-width extent. -/
theorem degenerate_extent_witness :
    ∃ win : Window,
      setup_figure_limits 7 7 0 50 800 600 = some win
      ∧ win.hmin < win.hmax ∧ win.vmin < win.vmax :=
  degenerate_extent_fit.1 7 0 50 800 600 (by norm_num) (by norm_num) (by norm_num)

/-- C7 Export sub-region mapping: with a committed non-degenerate selection,
`save` divides both pixel corners by the display DPI (`status.dpi`, not
`save_dpi`), takes the (min,min)-(max,max) bounding box, and rasterizes at
`save_dpi`; with no committed selection the whole surface is rasterized at
`save_dpi`; the format is `png` in both cases. -/
theorem save_region_mapping :
    (∀ ox oy fx fy display_dpi save_dpi : ℚ, ox ≠ fx → oy ≠ fy →
      save (some ((ox, oy), (fx, fy))) display_dpi save_dpi =
        { bbox_inches := some
            ((min ox fx / display_dpi, min oy fy / display_dpi),
             (max ox fx / display_dpi, max oy fy / display_dpi))
          dpi := save_dpi
          img_format := "png" })
    ∧ (∀ display_dpi save_dpi : ℚ,
        save none display_dpi save_dpi =
          { bbox_inches := none, dpi := save_dpi, img_format := "png" }) :=
  ⟨fun _ _ _ _ _ _ _ _ => rfl, fun _ _ => rfl⟩

/-- Witness for C7 at the spec's scenario: corners (100,100)-(300,400),
display DPI 100, save DPI 200. -/
theorem save_region_witness :
    save (some ((100, 100), (300, 400))) 100 200 =
      { bbox_inches := some
          ((min 100 300 / 100, min 100 400 / 100),
           (max 100 300 / 100, max 100 400 / 100))
        dpi := 200
        img_format := "png" } :=
  save_region_mapping.1 100 100 300 400 100 200 (by norm_num) (by norm_num)

/-- C8 as stated is false: a committed zero-width selection is truthy in
`if self.save_rectangle:`, so `save` rasterizes its zero-area bounding box
rather than the whole surface (which would be `bbox_inches = none`). -/
theorem degenerate_selection_counterexample :
    (save (some ((100, 100), (100, 400))) 100 200).bbox_inches
      = some ((1, 1), (1, 4)) := by
  norm_num [save]

/-- C8 amended: every committed rectangle, degenerate or not, is treated as a
selection — `save` uses its (possibly zero-area) bounding box and never falls
back to the whole surface; only the absence of a committed rectangle
(`save_rectangle is None`) exports the whole surface. -/
theorem degenerate_selection_behavior (ox oy fx fy display_dpi save_dpi : ℚ)
    (hdeg : ox = fx ∨ oy = fy) :
    (save (some ((ox, oy), (fx, fy))) display_dpi save_dpi).bbox_inches
        = some ((min ox fx / display_dpi, min oy fy / display_dpi),
                (max ox fx / display_dpi, max oy fy / display_dpi))
    ∧ (save (some ((ox, oy), (fx, fy))) display_dpi save_dpi).bbox_inches
        ≠ none :=
  ⟨rfl, by simp [save]⟩

/-- Witness for C8's amended behavior at a zero-width rectangle. -/
theorem degenerate_selection_witness :
    (save (some ((100, 100), (100, 400))) 100 200).bbox_inches
        = some ((min 100 100 / 100, min 100 400 / 100),
                (max 100 100 / 100, max 100 400 / 100))
    ∧ (save (some ((100, 100), (100, 400))) 100 200).bbox_inches ≠ none :=
  degenerate_selection_behavior 100 100 100 400 100 200 (Or.inl rfl)

/-- C9 as stated is false: the press origin is stored unclamped, so a press at
pixel `(-5, 10)` followed by a release yields a committed rectangle whose
origin corner lies outside `[0, 800] × [0, 600]`. -/
theorem selection_origin_counterexample :
    (select_run 800 600 [SelectEvent.activate, SelectEvent.press (-5) 10,
      SelectEvent.release 50 50]).save_rectangle = some ((-5, 10), (50, 50))
    ∧ ¬ in_canvas 800 600 (-5, 10) := by
  constructor
  · norm_num [select_run, select_step, initial_select_state, event_bounded]
  · norm_num [in_canvas]

/-- C9 amended: only the release corner is clamped; the origin corner equals
the raw press position.  Under the assumption that every press event's
coordinates lie on the drawing surface (which the GUI guarantees for clicks on
the canvas), every committed rectangle has both corners within
`[0, width] × [0, height]`. -/
theorem selection_bounds_invariant (cw ch : ℚ) (hcw : 0 ≤ cw) (hch : 0 ≤ ch)
    (evs : List SelectEvent)
    (hpress : ∀ x y, SelectEvent.press x y ∈ evs → in_canvas cw ch (x, y)) :
    ∀ r ∈ (select_run cw ch evs).save_rectangle,
      in_canvas cw ch r.1 ∧ in_canvas cw ch r.2 := by
  refine (select_foldl_good cw ch hcw hch evs initial_select_state ?_ hpress).2
  constructor
  · intro h
    simp [initial_select_state] at h
  · intro r hr
    simp [initial_select_state] at hr

/-- Witness for C9's amended invariant: an in-surface press with an
out-of-surface release still commits a rectangle with both corners in
bounds. -/
theorem selection_bounds_witness :
    in_canvas 800 600 (((5 : ℚ), (10 : ℚ)), ((800 : ℚ), (600 : ℚ))).1
    ∧ in_canvas 800 600 (((5 : ℚ), (10 : ℚ)), ((800 : ℚ), (600 : ℚ))).2 := by
  refine selection_bounds_invariant 800 600 (by norm_num) (by norm_num)
    [SelectEvent.activate, SelectEvent.press 5 10, SelectEvent.release 900 700]
    ?_ ((5, 10), (800, 600)) ?_
  · intro x y hm
    simp only [List.mem_cons, List.not_mem_nil, or_false] at hm
    rcases hm with h | h | h
    · cases h
    · injection h with hx hy
      subst hx
      subst hy
      norm_num [in_canvas]
    · cases h
  · norm_num [select_run, select_step, initial_select_state, event_bounded]

/-- C10 `parse_checkpoint_set`: the empty string yields the empty set; a range
entry whose stripped form contains `-` and splits into two parsed integers
`lo`, `hi` contributes exactly the integers in `[max lo 0, min hi 999]`; a
single-number entry is added without clamping, so a lone number outside
`[0, 999]` (such as 1500) does appear in the result. -/
theorem parse_checkpoint_set_spec :
    parse_checkpoint_set [] = some ∅
    ∧ (∀ (range_str low high : PyStr) (lo hi : ℤ),
        '-' ∈ pyStrip range_str →
        pySplit '-' (pyStrip range_str) = [low, high] →
        pyInt low = some lo → pyInt high = some hi →
        parse_entry range_str = some (Finset.Icc (max lo 0) (min hi 999)))
    ∧ (∀ (range_str : PyStr) (n : ℤ),
        '-' ∉ pyStrip range_str →
        pyInt (pyStrip range_str) = some n →
        parse_entry range_str = some ({n} : Finset ℤ))
    ∧ parse_checkpoint_set ['1', '5', '0', '0'] = some ({1500} : Finset ℤ)
    ∧ parse_checkpoint_set ['0', ',', '2', '-', '5', ',', '1', '5', '0', '0']
        = some ({0, 2, 3, 4, 5, 1500} : Finset ℤ) := by
  refine ⟨rfl, ?_, ?_, by decide, by decide⟩
  · intro range_str low high lo hi hmem hsplit hlo hhi
    simp only [parse_entry]
    rw [if_pos hmem, hsplit]
    show (match pyInt low, pyInt high with
      | some lo, some hi => some (Finset.Icc (max lo 0) (min hi 999))
      | _, _ => none) = some (Finset.Icc (max lo 0) (min hi 999))
    rw [hlo, hhi]
  · intro range_str n hmem hn
    simp only [parse_entry]
    rw [if_neg hmem, hn]
    rfl

/-- Witness for C10 at the concrete entries `2-5` and `7`. -/
theorem parse_checkpoint_set_witness :
    parse_entry ['2', '-', '5'] = some (Finset.Icc (max 2 0) (min 5 999))
    ∧ parse_entry ['7'] = some ({7} : Finset ℤ) :=
  ⟨parse_checkpoint_set_spec.2.1 ['2', '-', '5'] ['2'] ['5'] 2 5 (by decide)
      (by decide) (by decide) (by decide),
   parse_checkpoint_set_spec.2.2.1 ['7'] 7 (by decide) (by decide)⟩

end Fzgx
